import Mathlib

/-!
# Verification of the PyGame-ABM foraging simulation core

Shallow embedding, over exact rational arithmetic, of the resource,
agent-perception, movement and collision-resolution code of the repository
(`abm/environment/rescource.py`, `abm/sprites/agent.py`,
`abm/simulation/sims.py`, `abm/simulation/sims_target.py`,
`abm/simulation/sims_target_nowalls.py`), together with theorems settling
the specification claims about that code.

Numeric values that are floats in the source are modelled as rationals;
the transcendental primitives supplied by numpy / `abm.sprites.supcalc`
(`cos`, `sin`, `arctan`, `norm`, the two angle helpers, segment
intersection, and the constant `pi`) are abstracted into a `Prims`
parameter structure, so every theorem holds for any interpretation of
those primitives.
-/

namespace ABM

/-- A 2-D vector / point, as a pair of rationals. -/
abbrev Vec2 : Type := ℚ × ℚ

/-- Behavioral mode of an agent (`agent.mode` in `agent.py`:
`"explore" / "exploit" / "collide"`). -/
inductive Mode where
  | explore
  | exploit
  | collide
deriving DecidableEq, Repr

/-!
## Resource patches (`abm/environment/rescource.py`)

`Rescource.deplete` is at lines 113-128. The near-duplicate class
`abm.sprites.resource.Resource` used by the target simulations is not
present under `src/`; the claims cite `rescource.py` as the source for
`deplete`, and that is what is embedded here.
-/

/-- State of a resource patch: the fields of `Rescource` that `deplete`
and the simulation drivers read or write. -/
structure Rescource where
  id : Nat
  position : Vec2
  radius : ℚ
  /-- The `self.resc_left` : units remaining. -/
  resc_left : ℚ
  /-- The `self.unit_per_timestep` : quality (max exploitable units per agent per timestep). -/
  unit_per_timestep : ℚ
deriving DecidableEq, Repr

/-- The `Rescource.deplete(rescource_units)`, returning the updated patch,
the depleted units, and the destroy flag.  In the source the flag is
`False` when `self.resc_left > 0` after the update and `True` otherwise. -/
def deplete (r : Rescource) (rescource_units : ℚ) : Rescource × ℚ × Bool :=
  -- `if rescource_units > self.unit_per_timestep: rescource_units = self.unit_per_timestep`
  let ru := if rescource_units > r.unit_per_timestep then r.unit_per_timestep else rescource_units
  -- `if self.resc_left >= rescource_units: ... else: ...`
  let step : Rescource × ℚ :=
    if r.resc_left ≥ ru then ({ r with resc_left := r.resc_left - ru }, ru)
    else ({ r with resc_left := 0 }, r.resc_left)
  -- `if self.resc_left > 0: return depleted_units, False else: return depleted_units, True`
  if step.1.resc_left > 0 then (step.1, step.2, false) else (step.1, step.2, true)

/-!
## Consumption in the persistent-foraging (no-walls) driver
(`abm/simulation/sims_target_nowalls.py`, `Simulation.consume`, lines 516-536)
-/

/-- The per-agent state read and written by `Simulation.consume`. -/
structure ConsumerState where
  collected_r : ℚ
  mode : Mode
  /-- The `self.consumption` : the agent's consumption rate passed to `deplete`. -/
  consumption : ℚ
deriving DecidableEq, Repr

/-- The configuration fields of the no-walls `Simulation` that the
resource lifecycle reads. -/
structure SimCfg where
  regenerate_resources : Bool
  res_radius : ℚ
  res_pos : Vec2
  min_res_units : ℤ
  max_res_units : ℤ
deriving DecidableEq, Repr

/-- Modelled from the spec: `add_new_resource_patch_stationary_single` is
called by `Simulation.consume` (sims_target_nowalls.py line 536) but its
definition is not among the source files; per §3 of the spec, on
regeneration "a new patch is created in its place (policy: same or
randomized position, fresh unit/quality draw from configured ranges)".
The random draws (`units` from `[min_res_units, max_res_units)`,
`quality` from the configured quality range) are passed in explicitly. -/
def add_new_resource_patch_stationary_single (cfg : SimCfg)
    (freshUnits : ℤ) (freshQuality : ℚ) : Rescource :=
  { id := 0
    position := cfg.res_pos
    radius := cfg.res_radius
    resc_left := (freshUnits : ℚ)
    unit_per_timestep := freshQuality }

/-- The `Simulation.consume(agent)`: depletes the bound patch by the agent's
consumption rate, credits the granted units, sets the agent's mode, and
kills (and, if enabled, regenerates) the patch when it is fully depleted.
The returned list is the world's patch collection after the call (the
no-walls driver maintains a single patch). -/
def consume (cfg : SimCfg) (a : ConsumerState) (r : Rescource)
    (freshUnits : ℤ) (freshQuality : ℚ) : ConsumerState × List Rescource :=
  -- `depl_units, destroy_res = resource.deplete(agent.consumption)`
  let res := deplete r a.consumption
  let r' := res.1
  let depl_units := res.2.1
  let destroy_res := res.2.2
  -- `if depl_units > 0: agent.collected_r += depl_units; agent.mode = 'exploit'`
  -- `else: agent.mode = 'explore'`
  let a' :=
    if depl_units > 0 then
      { a with collected_r := a.collected_r + depl_units, mode := .exploit }
    else
      { a with mode := .explore }
  -- `if destroy_res: resource.kill(); if self.regenerate_resources: add_new_...()`
  if destroy_res then
    if cfg.regenerate_resources then
      (a', [add_new_resource_patch_stationary_single cfg freshUnits freshQuality])
    else (a', [])
  else (a', [r'])

/-!
## Consumption block of the basic driver (`abm/simulation/sims.py`, lines 181-188)

```python
for resc, agents in collision_group_ar.items():
    rescource_units_consumed = len(agents)
    for agent in agents:
        agent.collected_r += 1
        agent.mode = "exploit"
    destroy_resc = resc.deplete(rescource_units_consumed)
    if destroy_resc:
        resc.kill()
```

`deplete` returns the *pair* `(depleted_units, now_depleted)`, and
`destroy_resc` binds that whole pair; `if destroy_resc:` then tests the
truthiness of a nonempty tuple, which is always `True` in Python.
-/

/-- Python truthiness of the tuple `(depleted_units, now_depleted)`
returned by `deplete`: a nonempty tuple is always truthy. -/
def pyTruthyPair (_x : ℚ × Bool) : Bool := true

/-- The sims.py consumption block for one colliding patch: the patch is
depleted by the number of colliding agents and killed iff
`destroy_resc` (the tuple returned by `deplete`) is truthy.  Returns the
updated patch and whether `resc.kill()` ran. -/
def sims_resource_interaction (r : Rescource) (agentsCount : Nat) :
    Rescource × Bool :=
  let rescource_units_consumed : ℚ := (agentsCount : ℚ)
  let res := deplete r rescource_units_consumed
  let destroy_resc := pyTruthyPair (res.2.1, res.2.2)
  (res.1, destroy_resc)

/-!
## Mathematical primitives

`agent.py` computes with `np.cos`, `np.sin`, `np.arctan`,
`np.linalg.norm`, `np.pi` and with `supcalc.angle_bw_vis`,
`supcalc.angle_bw_coll`, `supcalc.get_intersection`, `supcalc.distance`
(the module `abm/sprites/supcalc.py` is not among the source files; per
§4.1 of the spec these are pure deterministic functions).  They are
abstracted as a parameter structure: every theorem below holds for any
interpretation of the primitives.
-/

/-- The real-valued primitives used by the agent code, abstracted.
`pi_pos` records the one fact about `np.pi` the embedding needs (it is
positive). -/
structure Prims where
  cos : ℚ → ℚ
  sin : ℚ → ℚ
  arctan : ℚ → ℚ
  /-- The `np.linalg.norm` of a 2-vector. -/
  norm : Vec2 → ℚ
  /-- Modelled from the spec: `supcalc.angle_bw_vis(v1, v2, radius, distance)`
  (supcalc.py is missing from the sources); per §4.1 the signed angular
  offset of the target in `(-pi, pi]`. -/
  angle_bw_vis : Vec2 → Vec2 → ℚ → ℚ → ℚ
  /-- Modelled from the spec: `supcalc.angle_bw_coll`, the contact-point
  bearing helper used by `Agent.move`. -/
  angle_bw_coll : Vec2 → Vec2 → ℚ → ℚ → ℚ
  /-- Modelled from the spec: `supcalc.get_intersection(p1, p2, q1, q2)`,
  2-D segment intersection returning none for parallel segments (§4.1). -/
  get_intersection : Vec2 → Vec2 → Vec2 → Vec2 → Option Vec2
  pi : ℚ
  pi_pos : 0 < pi

/-- Identity of one of the four arena walls. -/
inductive WallName where
  | north
  | south
  | east
  | west
deriving DecidableEq, Repr

/-- A per-ray entry of `agent.vis_field`: the Python list holds the int
`0` (nothing perceived yet) or one of the strings `'wall_*'`,
`'obj_<id>'`, `'agent_exploit'`, `'agent_explore'`. -/
inductive VisLabel where
  | zero
  | wall (w : WallName)
  | obj (id : Nat)
  | agent_exploit
  | agent_explore
deriving DecidableEq, Repr

/-- The `self.boundary_endpt_dict`: for each named corner, the visual angle
and the coordinate. -/
structure BoundaryEndptDict where
  TL : ℚ × Vec2
  TR : ℚ × Vec2
  BL : ℚ × Vec2
  BR : ℚ × Vec2
deriving DecidableEq, Repr

/-- One entry of `self.vis_field_wall_dict`. -/
structure WallEntry where
  name : WallName
  angle_L : ℚ
  angle_R : ℚ
  coord_L : Vec2
  coord_R : Vec2
deriving DecidableEq, Repr

/-- One entry of `self.vis_field_obj_dict` (key `'obj_<id>'`). -/
structure ObjEntry where
  id : Nat
  distance : ℚ
  angle_L : ℚ
  angle_R : ℚ
  coord : Vec2
deriving DecidableEq, Repr

/-- One entry of `self.vis_field_agent_dict` (key `'agent_<id>'`). -/
structure AgentEntry where
  id : Nat
  mode : Mode
  distance : ℚ
  angle_L : ℚ
  angle_R : ℚ
deriving DecidableEq, Repr

/-- The fields of another object (landmark) that the perception pass
reads. -/
structure ObjView where
  id : Nat
  position : Vec2
  radius : ℚ
deriving DecidableEq, Repr

/-- The fields of another agent that the perception pass reads. -/
structure AgentView where
  id : Nat
  position : Vec2
  mode : Mode
deriving DecidableEq, Repr

/-- The state of one `Agent` (agent.py): the persisted kinematic and
bookkeeping fields, the per-episode configuration, and the per-tick
perception buffers. -/
structure Agent where
  id : Nat
  position : Vec2
  orientation : ℚ
  velocity : ℚ
  acceleration : ℚ
  pt_eye : Vec2
  vec_self_dir : Vec2
  mode : Mode
  collided_points : List Vec2
  collected_r : ℚ
  on_res : Nat
  on_res_last_step : Nat
  res_to_be_consumed : Option Nat
  consumption : ℚ
  max_vel : ℚ
  radius : ℚ
  FOV : ℚ
  vis_field_res : Nat
  vision_range : ℚ
  percep_angle_noise_std : ℚ
  extra_coll_block : ℚ
  /-- The four corners `TL, TR, BL, BR`. -/
  boundary_endpts : Vec2 × Vec2 × Vec2 × Vec2
  /-- The `self.sim_type.startswith('nowalls')`. -/
  sim_type_nowalls : Bool
  vis_field : List VisLabel
  dist_field : Option (List ℚ)
  last_vis_field : List VisLabel
  boundary_endpt_dict : BoundaryEndptDict
  vis_field_wall_dict : List WallEntry
  vis_field_obj_dict : List ObjEntry
  vis_field_agent_dict : List AgentEntry
deriving DecidableEq, Repr

/-- The `np.linspace(a, b, n)`: `n` evenly spaced points from `a` to `b`
inclusive. -/
def linspace (a b : ℚ) (n : Nat) : List ℚ :=
  (List.range n).map (fun i => a + i * (b - a) / ((n : ℚ) - 1))

/-- The `self.phis = np.linspace(-FOV*np.pi, FOV*np.pi, vis_field_res)`
(computed in `__init__` from the immutable FOV configuration). -/
def phis (P : Prims) (a : Agent) : List ℚ :=
  linspace (-(a.FOV) * P.pi) (a.FOV * P.pi) a.vis_field_res

/-- The `Agent.gather_self_percep_info`: recompute the eye point on the
perimeter and the self-direction vector. -/
def gather_self_percep_info (P : Prims) (a : Agent) : Agent :=
  let pt_eye : Vec2 :=
    (a.position.1 + P.cos a.orientation * a.radius,
     a.position.2 - P.sin a.orientation * a.radius)
  { a with pt_eye := pt_eye,
           vec_self_dir := (pt_eye.1 - a.position.1, pt_eye.2 - a.position.2) }

/-- The dictionary entry computed for one boundary endpoint in
`Agent.gather_boundary_endpt_info`. -/
def endpt_entry (P : Prims) (a : Agent) (endpt_coord : Vec2) : ℚ × Vec2 :=
  let vec_between : Vec2 :=
    (endpt_coord.1 - a.pt_eye.1, endpt_coord.2 - a.pt_eye.2)
  let distance := P.norm vec_between
  (P.angle_bw_vis a.vec_self_dir vec_between a.radius distance, endpt_coord)

/-- The `Agent.gather_boundary_endpt_info`: visual angle of each of the four
corners. -/
def gather_boundary_endpt_info (P : Prims) (a : Agent) : Agent :=
  { a with boundary_endpt_dict :=
      { TL := endpt_entry P a a.boundary_endpts.1,
        TR := endpt_entry P a a.boundary_endpts.2.1,
        BL := endpt_entry P a a.boundary_endpts.2.2.1,
        BR := endpt_entry P a a.boundary_endpts.2.2.2 } }

/-- The `Agent.gather_boundary_wall_info`: the four walls with their L/R
endpoint angles, in source order
`(north TL TR), (south BR BL), (east TR BR), (west BL TL)`. -/
def gather_boundary_wall_info (a : Agent) : Agent :=
  let d := a.boundary_endpt_dict
  { a with vis_field_wall_dict := [
      { name := .north, angle_L := d.TL.1, angle_R := d.TR.1,
        coord_L := d.TL.2, coord_R := d.TR.2 },
      { name := .south, angle_L := d.BR.1, angle_R := d.BL.1,
        coord_L := d.BR.2, coord_R := d.BL.2 },
      { name := .east, angle_L := d.TR.1, angle_R := d.BR.1,
        coord_L := d.TR.2, coord_R := d.BR.2 },
      { name := .west, angle_L := d.BL.1, angle_R := d.TL.1,
        coord_L := d.BL.2, coord_R := d.TL.2 } ] }

/-- The loop body of `Agent.gather_obj_info`: skip self, skip objects
farther than `vision_range`, skip objects outside the FOV limits,
otherwise append the dictionary entry. -/
def obj_dict_step (P : Prims) (a : Agent) (phi_L_limit phi_R_limit : ℚ)
    (dict : List ObjEntry) (obj : ObjView) : List ObjEntry :=
  if obj.id ≠ a.id then
    let obj_coord := obj.position
    let vec_between : Vec2 :=
      (obj_coord.1 - a.pt_eye.1, obj_coord.2 - a.pt_eye.2)
    let obj_distance := P.norm vec_between
    if obj_distance ≤ a.vision_range then
      let angle_bw := P.angle_bw_vis a.vec_self_dir vec_between a.radius obj_distance
      let angle_edge := P.arctan (obj.radius / obj_distance)
      let angle_L := angle_bw - angle_edge
      let angle_R := angle_bw + angle_edge
      if (phi_L_limit ≤ angle_L ∧ angle_L ≤ phi_R_limit) ∨
         (phi_L_limit ≤ angle_R ∧ angle_R ≤ phi_R_limit) then
        dict ++ [{ id := obj.id, distance := obj_distance,
                   angle_L := angle_L, angle_R := angle_R, coord := obj_coord }]
      else dict
    else dict
  else dict

/-- The `Agent.gather_obj_info(objs)`: rebuild `vis_field_obj_dict`. -/
def gather_obj_info (P : Prims) (a : Agent) (objs : List ObjView) : Agent :=
  let phi_L_limit := (phis P a).headD 0
  let phi_R_limit := (phis P a).getLastD 0
  { a with vis_field_obj_dict :=
      objs.foldl (obj_dict_step P a phi_L_limit phi_R_limit) [] }

/-- The loop body of `Agent.gather_agent_info`: skip self, skip agents
outside the FOV limits, otherwise append the dictionary entry.  Unlike
`obj_dict_step` there is no `vision_range` test, and the exclusionary
angle uses the perceiving agent's own radius. -/
def agent_dict_step (P : Prims) (a : Agent) (phi_L_limit phi_R_limit : ℚ)
    (dict : List AgentEntry) (ag : AgentView) : List AgentEntry :=
  if ag.id ≠ a.id then
    let agent_coord := ag.position
    let vec_between : Vec2 :=
      (agent_coord.1 - a.pt_eye.1, agent_coord.2 - a.pt_eye.2)
    let agent_distance := P.norm vec_between
    let angle_bw := P.angle_bw_vis a.vec_self_dir vec_between a.radius agent_distance
    let angle_edge := P.arctan (a.radius / agent_distance)
    let angle_L := angle_bw - angle_edge
    let angle_R := angle_bw + angle_edge
    if (phi_L_limit ≤ angle_L ∧ angle_L ≤ phi_R_limit) ∨
       (phi_L_limit ≤ angle_R ∧ angle_R ≤ phi_R_limit) then
      dict ++ [{ id := ag.id, mode := ag.mode, distance := agent_distance,
                 angle_L := angle_L, angle_R := angle_R }]
    else dict
  else dict

/-- The `Agent.gather_agent_info(agents)`: rebuild `vis_field_agent_dict`. -/
def gather_agent_info (P : Prims) (a : Agent) (agents : List AgentView) : Agent :=
  let phi_L_limit := (phis P a).headD 0
  let phi_R_limit := (phis P a).getLastD 0
  { a with vis_field_agent_dict :=
      agents.foldl (agent_dict_step P a phi_L_limit phi_R_limit) [] }

/-- The `Agent.fill_dist_field(i, phi, coord_L, coord_R)`: distance from the
eye to the intersection of the perception ray with the surface chord.
When `get_intersection` returns none the source prints a warning and
then crashes computing `norm(pt_eye - None)`; that is modelled as
`none` (failure). -/
def fill_dist_field (P : Prims) (a : Agent) (phi : ℚ)
    (coord_L coord_R : Vec2) : Option ℚ :=
  let orient_global := phi - a.orientation
  let vec_percep : Vec2 := (P.cos orient_global, P.sin orient_global)
  let pt_percep : Vec2 := (a.pt_eye.1 + vec_percep.1, a.pt_eye.2 + vec_percep.2)
  match P.get_intersection coord_L coord_R a.pt_eye pt_percep with
  | none => none
  | some pt_cross =>
      some (P.norm (a.pt_eye.1 - pt_cross.1, a.pt_eye.2 - pt_cross.2))

/-- One pass of the per-ray wall loop in `Agent.fill_vis_field_walls`:
scan the wall dictionary in order, overwriting the accumulated
`(label, distance)` at every entry satisfying `cond`. -/
def wall_scan (P : Prims) (a : Agent) (phi : ℚ) (hasDist : Bool)
    (cond : WallEntry → Bool) :
    List WallEntry → VisLabel × Option ℚ → Option (VisLabel × Option ℚ)
  | [], acc => some acc
  | e :: rest, acc =>
    if cond e then
      if hasDist then
        match fill_dist_field P a phi e.coord_L e.coord_R with
        | none => none
        | some d => wall_scan P a phi hasDist cond rest (.wall e.name, some d)
      else wall_scan P a phi hasDist cond rest (.wall e.name, acc.2)
    else wall_scan P a phi hasDist cond rest acc

/-- The wall label (and optional distance) for a single ray: a first
pass over spans containing the ray, then — if the label is still `0` —
a second pass over wraparound spans (`angle_L > angle_R`). -/
def wall_ray (P : Prims) (a : Agent) (phi : ℚ) (hasDist : Bool) :
    Option (VisLabel × Option ℚ) := do
  let r1 ← wall_scan P a phi hasDist
    (fun e => decide (e.angle_L ≤ phi ∧ phi ≤ e.angle_R))
    a.vis_field_wall_dict (.zero, none)
  if r1.1 = .zero then
    wall_scan P a phi hasDist (fun e => decide (e.angle_L > e.angle_R))
      a.vis_field_wall_dict (.zero, r1.2)
  else pure r1

/-- The `Agent.fill_vis_field_walls`: label every ray from the wall
dictionary (called on the freshly zeroed buffers). -/
def fill_vis_field_walls (P : Prims) (a : Agent) : Option Agent :=
  match (phis P a).mapM (fun phi => wall_ray P a phi a.dist_field.isSome) with
  | none => none
  | some rs => some
      { a with
        vis_field := rs.map Prod.fst,
        dist_field := a.dist_field.map (fun old =>
          (rs.zip old).map (fun p => p.1.2.getD p.2)) }

/-- The winning (nearest) object for one ray in
`Agent.fill_vis_field_objs`: among the dictionary entries whose angular
span contains the ray, `occ_objs.sort()` + `occ_objs[0]` picks the
minimum in the lexicographic order on `(distance, 'obj_<id>')`. -/
def objs_ray_winner (a : Agent) (phi : ℚ) : Option ObjEntry :=
  let occ := a.vis_field_obj_dict.filter
    (fun v => decide (v.angle_L ≤ phi ∧ phi ≤ v.angle_R))
  occ.foldl (fun best v =>
    match best with
    | none => some v
    | some b =>
        if v.distance < b.distance ∨
           (v.distance = b.distance ∧
             ("obj_" ++ toString v.id) < ("obj_" ++ toString b.id)) then some v
        else some b) none

/-- The `Agent.fill_vis_field_objs`: overwrite each ray that sees an object
with the nearest object's label (and distance, when enabled); rays with
no object keep their previous (wall) label. -/
def fill_vis_field_objs (P : Prims) (a : Agent) : Agent :=
  let ps := phis P a
  { a with
    vis_field := (ps.zip a.vis_field).map (fun pr =>
      match objs_ray_winner a pr.1 with
      | some e => VisLabel.obj e.id
      | none => pr.2),
    dist_field := a.dist_field.map (fun old =>
      (ps.zip old).map (fun pr =>
        match objs_ray_winner a pr.1 with
        | some e => e.distance
        | none => pr.2)) }

/-- The winning (nearest) agent for one ray in
`Agent.fill_vis_field_agents`, with the same sorted-tuple selection on
`(distance, 'agent_<id>', mode)`. -/
def agents_ray_winner (a : Agent) (phi : ℚ) : Option AgentEntry :=
  let occ := a.vis_field_agent_dict.filter
    (fun v => decide (v.angle_L ≤ phi ∧ phi ≤ v.angle_R))
  occ.foldl (fun best v =>
    match best with
    | none => some v
    | some b =>
        if v.distance < b.distance ∨
           (v.distance = b.distance ∧
             ("agent_" ++ toString v.id) < ("agent_" ++ toString b.id)) then some v
        else some b) none

/-- The `Agent.fill_vis_field_agents`: overwrite each ray that sees an agent
with `agent_exploit` / `agent_explore` according to the nearest agent's
mode (explore and collide both map to `agent_explore`). -/
def fill_vis_field_agents (P : Prims) (a : Agent) : Agent :=
  let ps := phis P a
  { a with
    vis_field := (ps.zip a.vis_field).map (fun pr =>
      match agents_ray_winner a pr.1 with
      | some e =>
          if e.mode = .exploit then VisLabel.agent_exploit
          else VisLabel.agent_explore
      | none => pr.2) }

/-- The gather phase of `Agent.visual_sensing`: gather self info, then
wall/object info unless the simulation type is a no-walls one, then
agent info when there is more than one agent. -/
def sensing_gathered (P : Prims) (a : Agent) (objs : List ObjView)
    (agents : List AgentView) : Agent :=
  let a1 := gather_self_percep_info P a
  let a2 :=
    if ¬a1.sim_type_nowalls then
      gather_obj_info P (gather_boundary_wall_info (gather_boundary_endpt_info P a1)) objs
    else a1
  if agents.length > 1 then gather_agent_info P a2 agents else a2

/-- The wall/object fill phase of `Agent.visual_sensing` (walls may
fail on a degenerate intersection). -/
def sensing_fill_wallobj (P : Prims) (a : Agent) : Option Agent :=
  if ¬a.sim_type_nowalls then
    match fill_vis_field_walls P a with
    | none => none
    | some a4 => some (fill_vis_field_objs P a4)
  else some a

/-- The gather/fill pipeline of `Agent.visual_sensing`, run at the
(noise-perturbed) current orientation. -/
def sensing_core (P : Prims) (a : Agent) (objs : List ObjView)
    (agents : List AgentView) : Option Agent :=
  match sensing_fill_wallobj P (sensing_gathered P a objs agents) with
  | none => none
  | some a5 => some (if agents.length > 1 then fill_vis_field_agents P a5 else a5)

/-- The `Agent.visual_sensing` up to (and including) the orientation
perturbation: carry the last visual field, zero this tick's buffers,
add the angular noise `noise` to the orientation, and run the
gather/fill pipeline at the perturbed orientation. -/
def visual_sensing_noised (P : Prims) (a : Agent) (objs : List ObjView)
    (agents : List AgentView) (noise : ℚ) : Option Agent :=
  -- `self.last_vis_field = self.vis_field` ; zero both buffers
  let a1 := { a with last_vis_field := a.vis_field }
  let a2 := { a1 with
    vis_field := List.replicate a1.vis_field_res .zero,
    dist_field := a1.dist_field.map (fun _ => List.replicate a1.vis_field_res 0) }
  -- `self.orientation += noise`
  let a3 := { a2 with orientation := a2.orientation + noise }
  sensing_core P a3 objs agents

/-- The `Agent.visual_sensing(objs, agents)`: the noise added to the
orientation is the single Gaussian sample scaled by the configured
stdev (`noise = np.random.randn()*self.percep_angle_noise_std`), and
the orientation saved in `orientation_real` before the pass is restored
at the end. -/
def visual_sensing (P : Prims) (a : Agent) (objs : List ObjView)
    (agents : List AgentView) (randn_sample : ℚ) : Option Agent :=
  match visual_sensing_noised P a objs agents
      (randn_sample * a.percep_angle_noise_std) with
  | none => none
  | some b => some { b with orientation := a.orientation }

/-- The persisted (non-perception) agent state: the fields the claim
calls kinematic (position, orientation, velocity) together with the
other persisted bookkeeping fields (acceleration, mode, collected
resources, contact list). `PersistEq x y` says `y` agrees with `x` on
all of them. -/
def PersistEq (x y : Agent) : Prop :=
  y.position = x.position ∧ y.orientation = x.orientation ∧
  y.velocity = x.velocity ∧ y.acceleration = x.acceleration ∧
  y.mode = x.mode ∧ y.collected_r = x.collected_r ∧
  y.collided_points = x.collided_points

/-!
## Movement (`Agent.bind_orientation`, `Agent.move`)
-/

/-- The first loop of `Agent.bind_orientation`:
`while self.orientation < 0: self.orientation = 2*np.pi + self.orientation`. -/
def bind_up (tp : ℚ) (hp : 0 < tp) (o : ℚ) : ℚ :=
  if o < 0 then bind_up tp hp (o + tp) else o
termination_by (Int.ceil (-o / tp)).toNat
decreasing_by
  rename_i h
  have hstep : -(o + tp) / tp = -o / tp - 1 := by
    field_simp
    ring
  have hceil : Int.ceil (-(o + tp) / tp) = Int.ceil (-o / tp) - 1 := by
    rw [hstep, Int.ceil_sub_one]
  have hpos : 0 < Int.ceil (-o / tp) := by
    rw [Int.ceil_pos]
    exact div_pos (by linarith) hp
  rw [hceil]
  omega

/-- The second loop of `Agent.bind_orientation`:
`while self.orientation > np.pi * 2: self.orientation = self.orientation - 2*np.pi`. -/
def bind_down (tp : ℚ) (hp : 0 < tp) (o : ℚ) : ℚ :=
  if o > tp then bind_down tp hp (o - tp) else o
termination_by (Int.ceil (o / tp)).toNat
decreasing_by
  rename_i h
  have hstep : (o - tp) / tp = o / tp - 1 := by
    field_simp
  have hceil : Int.ceil ((o - tp) / tp) = Int.ceil (o / tp) - 1 := by
    rw [hstep, Int.ceil_sub_one]
  have hpos : 0 < Int.ceil (o / tp) := by
    rw [Int.ceil_pos]
    have : (0:ℚ) < o := lt_trans hp h
    positivity
  rw [hceil]
  omega

/-- The `Agent.bind_orientation`: the two wrap loops in source order. -/
def bind_orientation (P : Prims) (o : ℚ) : ℚ :=
  bind_down (2 * P.pi) (by linarith [P.pi_pos])
    (bind_up (2 * P.pi) (by linarith [P.pi_pos]) o)

/-- The body of the contact-point loop in `Agent.move`: zero the
velocity when the (already updated) orientation points into the blocked
half-circle around the contact bearing, with explicit handling of
wraparound past `0` / `2*pi`. -/
def coll_block_step (P : Prims) (a : Agent) (orientation1 : ℚ)
    (v : ℚ) (pt : Vec2) : ℚ :=
  let vec_coll : Vec2 := (pt.1 - a.position.1, pt.2 - a.position.2)
  let distance := P.norm vec_coll
  let angle_coll := P.angle_bw_coll vec_coll (10, 0) distance a.radius
  let L_limit := angle_coll - P.pi / 2 - a.extra_coll_block
  let R_limit := angle_coll + P.pi / 2 + a.extra_coll_block
  if R_limit > 2 * P.pi then
    if L_limit < orientation1 ∨ R_limit - 2 * P.pi > orientation1 then 0 else v
  else if L_limit < 0 then
    if R_limit > orientation1 ∨ L_limit + 2 * P.pi < orientation1 then 0 else v
  else
    if L_limit < orientation1 ∧ orientation1 < R_limit then 0 else v

/-- The `Agent.move(NN_output)`: turn (scaled by `pi/2`), wrap the
orientation, set the turn-constrained speed
`max_vel * (1 - |NN_output|)`, zero it on blocking contacts when in
collide mode, and advance the position along the heading
(`(cos, -sin)`, screen-flipped y-axis). -/
def move (P : Prims) (a : Agent) (NN_output : ℚ) : Agent :=
  let turn := NN_output * P.pi / 2
  let orientation1 := bind_orientation P (a.orientation + turn)
  let velocity_last_step := a.velocity
  let new_velocity := a.max_vel * (1 - |NN_output|)
  let acceleration := new_velocity - velocity_last_step
  let final_velocity :=
    if a.mode = .collide then
      a.collided_points.foldl (coll_block_step P a orientation1) new_velocity
    else new_velocity
  { a with
    orientation := orientation1,
    velocity := final_velocity,
    acceleration := acceleration,
    position := (a.position.1 + final_velocity * P.cos orientation1,
                 a.position.2 + final_velocity * (-(P.sin orientation1))) }

/-!
## The per-tick collision-resolution pass (`sims_target.py`)

`Simulation.start` invokes, in this fixed order (lines 911-914):
`collide_agent_wall()`, `collide_agent_objs()`, `collide_agent_agent()`,
`collide_agent_res()`.  Each resolver re-queries current positions and
may overwrite `agent.mode`.  The pygame broad-phase predicates
(`groupcollide` with rect overlap / `collide_circle`) and the
rect-clipping contact geometry live in the pygame library and in the
missing sprite classes (`wall.py`, `landmark.py`, `supcalc.py`), so they
are abstracted as parameters depending only on the agent's position. -/

/-- A wall sprite.  Modelled from the spec: `abm/sprites/wall.py` is not
among the source files; per §3 a wall is a static obstacle with an
identity and a rectangular extent, entering the resolvers only through
the abstracted overlap/clip predicates. -/
structure WallSprite where
  id : Nat
deriving DecidableEq, Repr

/-- The world collections and collision predicates the resolver pass
reads.  `dist` stands for `supcalc.distance` (supcalc.py missing from
the sources; per §4.1 the Euclidean distance). -/
structure CollisionParams where
  walls : List WallSprite
  objs : List ObjView
  agents : List AgentView
  resources : List Rescource
  window_pad : ℚ
  /-- pygame rect-overlap broad phase of `groupcollide(agents, walls)`. -/
  wall_overlap : Vec2 → WallSprite → Bool
  /-- The `agent.rect.clip(wall.rect).center`. -/
  wall_clip_center : Vec2 → WallSprite → Vec2
  /-- The `pygame.sprite.collide_circle` broad phase for landmarks. -/
  obj_overlap : Vec2 → ObjView → Bool
  /-- The `supcalc.within_group_collision` (supcalc.py missing; overlap of two distinct agents). -/
  agent_overlap : Vec2 → AgentView → Bool
  /-- The `agent1.rect.clip(agentX.rect).center`. -/
  agent_clip_center : Vec2 → AgentView → Vec2
  /-- The `pygame.sprite.collide_circle` broad phase for resources. -/
  res_overlap : Vec2 → Rescource → Bool
  /-- The `supcalc.distance`. -/
  dist : Vec2 → Vec2 → ℚ

/-- The `Simulation.collide_agent_wall`, restricted to one agent: if any
wall overlaps, set mode to collide and append every clip center (shifted
by the window padding) to the contact list. -/
def collide_agent_wall (E : CollisionParams) (a : Agent) : Agent :=
  let wall_list := E.walls.filter (fun w => E.wall_overlap a.position w)
  match wall_list with
  | [] => a
  | _ => { a with
      mode := .collide,
      collided_points := a.collided_points ++ wall_list.map (fun w =>
        let clip := E.wall_clip_center a.position w
        (clip.1 - E.window_pad, clip.2 - E.window_pad)) }

/-- The `Simulation.collide_agent_objs`, restricted to one agent: landmark
contacts use the midpoint between the two centers. -/
def collide_agent_objs (E : CollisionParams) (a : Agent) : Agent :=
  let obj_list := E.objs.filter (fun o => E.obj_overlap a.position o)
  match obj_list with
  | [] => a
  | _ => { a with
      mode := .collide,
      collided_points := a.collided_points ++ obj_list.map (fun o =>
        let mid : Vec2 := ((a.position.1 + o.position.1) / 2,
                           (a.position.2 + o.position.2) / 2)
        (mid.1 - E.window_pad, mid.2 - E.window_pad)) }

/-- The `Simulation.collide_agent_agent`, restricted to one agent. -/
def collide_agent_agent (E : CollisionParams) (a : Agent) : Agent :=
  let other_agents := E.agents.filter
    (fun x => decide (x.id ≠ a.id) && E.agent_overlap a.position x)
  match other_agents with
  | [] => a
  | _ => { a with
      mode := .collide,
      collided_points := a.collided_points ++ other_agents.map (fun x =>
        let clip := E.agent_clip_center a.position x
        (clip.1 - E.window_pad, clip.2 - E.window_pad)) }

/-- The `Simulation.collide_agent_res`, restricted to one agent: among the
broad-phase hits, the first resource whose center is within patch radius
of the agent's center flips the mode to exploit, sets the on-resource
flags and binds the resource for this tick's consumption (`break`). -/
def collide_agent_res (E : CollisionParams) (a : Agent) : Agent :=
  let resource_list := E.resources.filter (fun r => E.res_overlap a.position r)
  match resource_list.find? (fun r => decide (E.dist a.position r.position ≤ r.radius)) with
  | some r => { a with
      mode := .exploit, on_res := 1, on_res_last_step := 1,
      res_to_be_consumed := some r.id }
  | none => a

/-- The complete collision-resolution pass of one tick of
`sims_target.py`, in source call order (wall, landmark, agent,
resource); the last resolver that matches decides the final mode. -/
def collision_pass (E : CollisionParams) (a : Agent) : Agent :=
  collide_agent_res E (collide_agent_agent E (collide_agent_objs E (collide_agent_wall E a)))

/-- The field-of-view test applied to another agent by
`gather_agent_info` (its angular span touches the `[phis[0], phis[-1]]`
window); definitionally the guard of `agent_dict_step`. -/
def agent_fov_hit (P : Prims) (a : Agent) (phi_L_limit phi_R_limit : ℚ)
    (ag : AgentView) : Prop :=
  let agent_coord := ag.position
  let vec_between : Vec2 :=
    (agent_coord.1 - a.pt_eye.1, agent_coord.2 - a.pt_eye.2)
  let agent_distance := P.norm vec_between
  let angle_bw := P.angle_bw_vis a.vec_self_dir vec_between a.radius agent_distance
  let angle_edge := P.arctan (a.radius / agent_distance)
  let angle_L := angle_bw - angle_edge
  let angle_R := angle_bw + angle_edge
  (phi_L_limit ≤ angle_L ∧ angle_L ≤ phi_R_limit) ∨
  (phi_L_limit ≤ angle_R ∧ angle_R ≤ phi_R_limit)

/-!
## Concrete instances used by witnesses and counterexamples

`PC` interprets the abstract primitives with simple exact functions
(constant heading `cos = 1, sin = 0`, small-angle `arctan x = x`, the
L1 norm — which agrees with the Euclidean norm on the axis-aligned
vectors used below — dead-ahead angle `0`, and a rational approximation
of `pi`). -/

/-- A concrete interpretation of the mathematical primitives. -/
def PC : Prims :=
  { cos := fun _ => 1
    sin := fun _ => 0
    arctan := fun x => x
    norm := fun v => |v.1| + |v.2|
    angle_bw_vis := fun _ _ _ _ => 0
    angle_bw_coll := fun _ _ _ _ => 0
    get_intersection := fun _ _ _ _ => some (0, 0)
    pi := 314159 / 100000
    pi_pos := by norm_num }

/-- A baseline concrete agent state. -/
def agent0 : Agent :=
  { id := 0
    position := (300, 400)
    orientation := 0
    velocity := 0
    acceleration := 0
    pt_eye := (301, 400)
    vec_self_dir := (1, 0)
    mode := .explore
    collided_points := []
    collected_r := 0
    on_res := 0
    on_res_last_step := 0
    res_to_be_consumed := none
    consumption := 1
    max_vel := 2
    radius := 1
    FOV := 1
    vis_field_res := 2
    vision_range := 5
    percep_angle_noise_std := 1 / 10
    extra_coll_block := 0
    boundary_endpts := ((0, 0), (1000, 0), (0, 1000), (1000, 1000))
    sim_type_nowalls := true
    vis_field := [.zero, .zero]
    dist_field := none
    last_vis_field := [.zero, .zero]
    boundary_endpt_dict :=
      { TL := (0, (0, 0)), TR := (0, (0, 0)), BL := (0, (0, 0)), BR := (0, (0, 0)) }
    vis_field_wall_dict := []
    vis_field_obj_dict := []
    vis_field_agent_dict := [] }

/-- The perceiving agent for the C6 instances: at the origin, eye point
at `(1, 0)`, vision range 5. -/
def a6 : Agent := { agent0 with position := (0, 0), pt_eye := (1, 0) }

/-- Another agent 10 length units from `a6`'s eye — twice its vision
range — dead ahead. -/
def agFar : AgentView := { id := 1, position := (11, 0), mode := .explore }

/-- Concrete input for the witness of `deplete_caps_and_conserves`. -/
def rW : Rescource :=
  { id := 0, position := (0, 0), radius := 10, resc_left := 5, unit_per_timestep := 2 }

/-- Concrete patch refuting C3: 5 units remaining, quality 1. -/
def rC3 : Rescource :=
  { id := 0, position := (0, 0), radius := 10, resc_left := 5, unit_per_timestep := 1 }

/-- Concrete patch exhibiting the sims.py truthiness bug: 50 units
remaining, quality 1, one colliding agent. -/
def rC4 : Rescource :=
  { id := 0, position := (0, 0), radius := 10, resc_left := 50, unit_per_timestep := 1 }

/-- Concrete scenario for the witness of `consume_regenerates_active_patch`. -/
def cfgW : SimCfg :=
  { regenerate_resources := true, res_radius := 10, res_pos := (100, 100),
    min_res_units := 20, max_res_units := 50 }

/-- Concrete consuming agent for the regeneration witness: consumption
rate 1 on a patch holding exactly 1 unit, so the call depletes it. -/
def aW : ConsumerState := { collected_r := 0, mode := .exploit, consumption := 1 }

/-- Concrete nearly-empty patch for the regeneration witness. -/
def rW5 : Rescource :=
  { id := 0, position := (100, 100), radius := 10, resc_left := 1, unit_per_timestep := 2 }

/-- Concrete world for the C1 witness: one wall overlapping the agent,
one resource patch the agent's center is inside. -/
def EW : CollisionParams :=
  { walls := [⟨0⟩]
    objs := []
    agents := []
    resources := [rW]
    window_pad := 30
    wall_overlap := fun _ _ => true
    wall_clip_center := fun p _ => p
    obj_overlap := fun _ _ => false
    agent_overlap := fun _ _ => false
    agent_clip_center := fun p _ => p
    res_overlap := fun _ _ => true
    dist := fun _ _ => 0 }

/-!
## Theorems about the resource model
-/

/-- Claim C2: For every call `deplete(u)` on a resource patch (with the
patch invariants `0 ≤ resc_left` and `0 ≤ unit_per_timestep`), the
granted units never exceed `min(quality, units_remaining before the
call)`, `units_remaining` decreases by exactly the granted amount, and
the returned boolean reports whether the patch is at zero units after
the call. -/
theorem deplete_caps_and_conserves (r : Rescource) (u : ℚ)
    (hleft : 0 ≤ r.resc_left) (hq : 0 ≤ r.unit_per_timestep) :
    (deplete r u).2.1 ≤ min r.unit_per_timestep r.resc_left ∧
    (deplete r u).1.resc_left = r.resc_left - (deplete r u).2.1 ∧
    ((deplete r u).2.2 = true ↔ (deplete r u).1.resc_left = 0) := by
  simp only [deplete]
  split_ifs with h1 h2 h3 h2 h3 <;>
    dsimp only at * <;>
    refine ⟨le_min (by linarith) (by linarith), by ring, ?_⟩ <;>
    simp only [Bool.false_eq_true, false_iff, true_iff] <;>
    first
      | linarith
      | (intro h; linarith)

/-- Witness for C2: `deplete` on a patch with 5 units, quality 2 and a
request of 3 units. -/
theorem deplete_caps_and_conserves_witness :
    (0 ≤ rW.resc_left ∧ 0 ≤ rW.unit_per_timestep) ∧
    ((deplete rW 3).2.1 ≤ min rW.unit_per_timestep rW.resc_left ∧
     (deplete rW 3).1.resc_left = rW.resc_left - (deplete rW 3).2.1 ∧
     ((deplete rW 3).2.2 = true ↔ (deplete rW 3).1.resc_left = 0)) :=
  ⟨by constructor <;> norm_num [rW],
   deplete_caps_and_conserves rW 3 (by norm_num [rW]) (by norm_num [rW])⟩

/-- Claim C3, counterexample: `deplete(-1)` is *not* a no-op: on a patch
with 5 units remaining it grants `-1` units and *increases*
`units_remaining` to 6 (the code never clamps negative requests). -/
theorem deplete_negative_request_not_noop :
    (deplete rC3 (-1)).2.1 = -1 ∧
    (deplete rC3 (-1)).1.resc_left = 6 ∧
    ¬((deplete rC3 (-1)).2.1 = 0 ∧ (deplete rC3 (-1)).1.resc_left = rC3.resc_left) := by
  norm_num [deplete, rC3]

/-- Claim C3, amended: For a patch with `0 ≤ resc_left` and
`0 ≤ unit_per_timestep`: `deplete(0)` is a no-op granting zero units,
leaving `units_remaining` unchanged and returning
`now_depleted = (units_remaining == 0)`; but for `requested_units < 0`
the code grants the negative request itself and *increases*
`units_remaining` by its magnitude. -/
theorem deplete_nonpos_request (r : Rescource) (u : ℚ)
    (hleft : 0 ≤ r.resc_left) (hq : 0 ≤ r.unit_per_timestep) (hu : u ≤ 0) :
    (u = 0 → (deplete r u).2.1 = 0 ∧
       (deplete r u).1.resc_left = r.resc_left ∧
       ((deplete r u).2.2 = true ↔ r.resc_left = 0)) ∧
    (u < 0 → (deplete r u).2.1 = u ∧
       (deplete r u).1.resc_left = r.resc_left - u) := by
  constructor
  · rintro rfl
    simp only [deplete]
    split_ifs with h1 h2 h3 h2 h3 <;>
      dsimp only at * <;>
      first
        | (exfalso; linarith)
        | (refine ⟨rfl, by ring, ?_⟩ <;>
            simp only [Bool.false_eq_true, false_iff, true_iff] <;>
            first
              | linarith
              | (intro h; linarith))
  · intro hneg
    simp only [deplete]
    split_ifs with h1 h2 h3 h2 h3 <;>
      dsimp only at * <;>
      first
        | (exfalso; linarith)
        | exact ⟨rfl, rfl⟩

/-- Witness for `deplete_nonpos_request`: request of 0 units on a patch
with 5 units remaining and quality 2. -/
theorem deplete_nonpos_request_witness :
    (0 ≤ rW.resc_left ∧ 0 ≤ rW.unit_per_timestep ∧ (0:ℚ) ≤ 0) ∧
    (((0:ℚ) = 0 → (deplete rW 0).2.1 = 0 ∧
        (deplete rW 0).1.resc_left = rW.resc_left ∧
        ((deplete rW 0).2.2 = true ↔ rW.resc_left = 0)) ∧
     ((0:ℚ) < 0 → (deplete rW 0).2.1 = 0 ∧
        (deplete rW 0).1.resc_left = rW.resc_left - 0)) :=
  ⟨by refine ⟨?_, ?_, le_refl 0⟩ <;> norm_num [rW],
   deplete_nonpos_request rW 0 (by norm_num [rW]) (by norm_num [rW]) (le_refl 0)⟩

/-- Claim C4, failing input: In the sims.py consumption block
(lines 181-188) the destroy flag binds the whole `(units, bool)` tuple
returned by `deplete`, and a nonempty tuple is always truthy: a patch
with 50 units and quality 1, visited by a single agent, is killed
(`resc.kill()` runs) even though 49 units remain — contradicting the
claim that a patch with positive remaining units stays in the world. -/
theorem sims_kills_patch_with_units_left :
    (sims_resource_interaction rC4 1).2 = true ∧
    (sims_resource_interaction rC4 1).1.resc_left = 49 ∧
    (49:ℚ) > 0 := by
  norm_num [sims_resource_interaction, deplete, pyTruthyPair, rC4]

/-- Claim C5: In the no-walls driver with `regenerate_patches` enabled, a
`consume` call that fully depletes the patch leaves in the world a fresh
active patch whose units are a draw from the configured range (which
starts at `min_res_units ≥ 1`), so a patch with `units_remaining > 0`
exists from the next tick on. -/
theorem consume_regenerates_active_patch (cfg : SimCfg) (a : ConsumerState)
    (r : Rescource) (freshUnits : ℤ) (freshQuality : ℚ)
    (hreg : cfg.regenerate_resources = true)
    (hdep : (deplete r a.consumption).2.2 = true)
    (hmin : 1 ≤ cfg.min_res_units)
    (hdraw : cfg.min_res_units ≤ freshUnits) :
    ∃ p ∈ (consume cfg a r freshUnits freshQuality).2,
      0 < p.resc_left ∧ p.unit_per_timestep = freshQuality := by
  refine ⟨add_new_resource_patch_stationary_single cfg freshUnits freshQuality, ?_, ?_, rfl⟩
  · simp only [consume, hdep, hreg, if_true]
    exact List.mem_singleton.mpr rfl
  · have h1 : (1:ℤ) ≤ freshUnits := le_trans hmin hdraw
    simp only [add_new_resource_patch_stationary_single]
    exact_mod_cast lt_of_lt_of_le Int.zero_lt_one h1

/-- Witness for C5: depleting the last unit of `rW5` with regeneration
enabled yields a fresh active patch with 30 units. -/
theorem consume_regenerates_active_patch_witness :
    (cfgW.regenerate_resources = true ∧ (deplete rW5 aW.consumption).2.2 = true ∧
     1 ≤ cfgW.min_res_units ∧ cfgW.min_res_units ≤ (30:ℤ)) ∧
    (∃ p ∈ (consume cfgW aW rW5 30 2).2,
      0 < p.resc_left ∧ p.unit_per_timestep = 2) :=
  ⟨⟨rfl, by norm_num [deplete, rW5, aW], by decide, by decide⟩,
   consume_regenerates_active_patch cfgW aW rW5 30 2 rfl
     (by norm_num [deplete, rW5, aW]) (by decide) (by decide)⟩

/-- Helper: `deplete` always leaves `resc_left` lower by exactly the
granted amount. -/
theorem deplete_resc_left_sub (r : Rescource) (u : ℚ) :
    (deplete r u).1.resc_left = r.resc_left - (deplete r u).2.1 := by
  simp only [deplete]
  split_ifs <;> dsimp only <;> ring

/-- The granted units of `deplete` are non-negative whenever the request,
the remaining units and the quality all are. -/
theorem deplete_granted_nonneg (r : Rescource) (u : ℚ)
    (hu : 0 ≤ u) (hleft : 0 ≤ r.resc_left) (hq : 0 ≤ r.unit_per_timestep) :
    0 ≤ (deplete r u).2.1 := by
  simp only [deplete]
  split_ifs <;> dsimp only <;> linarith

/-- Claim C10: Resource units are conserved by `consume`: with a
non-negative consumption rate (and the patch invariants), the sum of the
agent's `collected_r` and the patch's `resc_left` is unchanged by the
call — the agent gains exactly what the patch loses — and `collected_r`
never decreases. -/
theorem consume_conserves_units (cfg : SimCfg) (a : ConsumerState)
    (r : Rescource) (freshUnits : ℤ) (freshQuality : ℚ)
    (hc : 0 ≤ a.consumption) (hleft : 0 ≤ r.resc_left)
    (hq : 0 ≤ r.unit_per_timestep) :
    (consume cfg a r freshUnits freshQuality).1.collected_r +
        (deplete r a.consumption).1.resc_left
      = a.collected_r + r.resc_left ∧
    a.collected_r ≤ (consume cfg a r freshUnits freshQuality).1.collected_r := by
  have hcons := deplete_resc_left_sub r a.consumption
  have hpos := deplete_granted_nonneg r a.consumption hc hleft hq
  have hfst : (consume cfg a r freshUnits freshQuality).1 =
      if (deplete r a.consumption).2.1 > 0 then
        { a with collected_r := a.collected_r + (deplete r a.consumption).2.1,
                 mode := .exploit }
      else { a with mode := .explore } := by
    simp only [consume]
    split_ifs <;> rfl
  rw [hfst]
  split_ifs with hgt
  · dsimp only
    exact ⟨by linarith, by linarith⟩
  · have hz : (deplete r a.consumption).2.1 = 0 := le_antisymm (not_lt.mp hgt) hpos
    dsimp only
    refine ⟨?_, le_refl _⟩
    rw [hcons, hz]
    ring

/-- Witness for C10: consumption rate 1 on a patch with 5 units and
quality 2. -/
theorem consume_conserves_units_witness :
    (0 ≤ aW.consumption ∧ 0 ≤ rW.resc_left ∧ 0 ≤ rW.unit_per_timestep) ∧
    ((consume cfgW aW rW 30 2).1.collected_r +
        (deplete rW aW.consumption).1.resc_left
      = aW.collected_r + rW.resc_left ∧
     aW.collected_r ≤ (consume cfgW aW rW 30 2).1.collected_r) :=
  ⟨by refine ⟨?_, ?_, ?_⟩ <;> norm_num [aW, rW],
   consume_conserves_units cfgW aW rW 30 2 (by norm_num [aW])
     (by norm_num [rW]) (by norm_num [rW])⟩

/-!
## Theorems about orientation wrapping (C9)
-/

/-- The first wrap loop always ends non-negative. -/
theorem bind_up_nonneg (tp : ℚ) (hp : 0 < tp) (o : ℚ) :
    0 ≤ bind_up tp hp o := by
  induction o using bind_up.induct tp hp with
  | case1 o h ih => rw [bind_up, if_pos h]; exact ih
  | case2 o h => rw [bind_up, if_neg h]; linarith

/-- The second wrap loop always ends at or below the bound. -/
theorem bind_down_le (tp : ℚ) (hp : 0 < tp) (o : ℚ) :
    bind_down tp hp o ≤ tp := by
  induction o using bind_down.induct tp hp with
  | case1 o h ih => rw [bind_down, if_pos h]; exact ih
  | case2 o h => rw [bind_down, if_neg h]; linarith

/-- The second wrap loop preserves non-negativity. -/
theorem bind_down_nonneg (tp : ℚ) (hp : 0 < tp) (o : ℚ) (ho : 0 ≤ o) :
    0 ≤ bind_down tp hp o := by
  induction o using bind_down.induct tp hp with
  | case1 o h ih => rw [bind_down, if_pos h]; exact ih (by linarith)
  | case2 o h => rw [bind_down, if_neg h]; exact ho

/-- Claim C9, counterexample: At orientation exactly `2*pi` neither wrap
loop fires, so `bind_orientation` returns `2*pi` itself — which is not
in the half-open interval `[0, 2*pi)` the claim states. -/
theorem bind_orientation_keeps_two_pi :
    bind_orientation PC (2 * PC.pi) = 2 * PC.pi ∧
    ¬(bind_orientation PC (2 * PC.pi) < 2 * PC.pi) := by
  have h : bind_orientation PC (2 * PC.pi) = 2 * PC.pi := by
    unfold bind_orientation
    rw [bind_up, if_neg (by norm_num [PC]), bind_down, if_neg (by norm_num [PC])]
  exact ⟨h, by rw [h]; exact lt_irrefl _⟩

/-- Claim C9, amended: For every agent and every initial orientation
value, `bind_orientation` terminates (it is a total function) and its
result lies in the *closed* interval `[0, 2*pi]` — the source guard is
`while self.orientation > np.pi * 2`, so the value `2*pi` itself is
kept, exactly as the method's own docstring (`[0 : 2*pi]`) states. -/
theorem bind_orientation_range (P : Prims) (o : ℚ) :
    0 ≤ bind_orientation P o ∧ bind_orientation P o ≤ 2 * P.pi := by
  have hp : 0 < 2 * P.pi := by linarith [P.pi_pos]
  exact ⟨bind_down_nonneg _ hp _ (bind_up_nonneg _ hp o), bind_down_le _ hp _⟩

/-!
## Theorems about movement (C7)
-/

/-- The velocity component of `move`: the turn-constrained base speed,
run through the contact-blocking loop when the agent is in collide
mode. -/
theorem move_velocity_eq (P : Prims) (a : Agent) (action : ℚ) :
    (move P a action).velocity =
      if a.mode = .collide then
        a.collided_points.foldl
          (coll_block_step P a (bind_orientation P (a.orientation + action * P.pi / 2)))
          (a.max_vel * (1 - |action|))
      else a.max_vel * (1 - |action|) := rfl

/-- Each contact-point check either keeps the velocity or zeroes it. -/
theorem coll_block_step_eq_or_zero (P : Prims) (a : Agent) (o1 v : ℚ) (pt : Vec2) :
    coll_block_step P a o1 v pt = v ∨ coll_block_step P a o1 v pt = 0 := by
  simp only [coll_block_step]
  split_ifs <;> simp

/-- The whole contact loop either keeps the initial velocity or ends at
zero. -/
theorem foldl_coll_block_eq_or_zero (P : Prims) (a : Agent) (o1 : ℚ)
    (pts : List Vec2) (v : ℚ) :
    pts.foldl (coll_block_step P a o1) v = v ∨
    pts.foldl (coll_block_step P a o1) v = 0 := by
  induction pts generalizing v with
  | nil => exact Or.inl rfl
  | cons p ps ih =>
    rw [List.foldl_cons]
    rcases coll_block_step_eq_or_zero P a o1 v p with h | h
    · rw [h]; exact ih v
    · rw [h]
      rcases ih 0 with h0 | h0 <;> exact Or.inr h0

/-- Claim C7, counterexample: The driver passes
`agent.action + randn()*action_noise_std` to `move` without clipping
(sims_target_nowalls.py line 760), so the argument can leave `[-1, 1]`:
at action value `2` the new velocity is `max_vel * (1 - |2|) = -max_vel`,
which is negative — the claimed invariant `velocity ∈ [0, max_vel]` does
not hold for every action value actually passed to `move`. -/
theorem move_negative_velocity_on_noisy_action :
    (move PC agent0 2).velocity = -2 ∧ ¬(0 ≤ (move PC agent0 2).velocity) := by
  have h : (move PC agent0 2).velocity = -2 := by
    rw [move_velocity_eq, if_neg (by simp [agent0]),
        abs_of_pos (by norm_num : (0:ℚ) < 2)]
    norm_num [agent0]
  exact ⟨h, by rw [h]; norm_num⟩

/-- Claim C7, amended: Whenever the action passed to `move` satisfies
`|action| ≤ 1` (the controller's own output range — the driver may
exceed it by adding unclipped Gaussian noise) and `max_vel ≥ 0`, the
velocity after `move` lies in `[0, max_vel]`; an action of magnitude 1
forces velocity 0; and a zero action gives exactly `max_vel` when the
agent is not in collide mode (in collide mode the blocking check may
zero the speed instead). -/
theorem move_velocity_bounds (P : Prims) (a : Agent) (action : ℚ)
    (hact : |action| ≤ 1) (hmax : 0 ≤ a.max_vel) :
    (0 ≤ (move P a action).velocity ∧ (move P a action).velocity ≤ a.max_vel) ∧
    (|action| = 1 → (move P a action).velocity = 0) ∧
    (action = 0 → a.mode ≠ .collide → (move P a action).velocity = a.max_vel) := by
  have habs : 0 ≤ |action| := abs_nonneg action
  have hbase0 : 0 ≤ a.max_vel * (1 - |action|) := mul_nonneg hmax (by linarith)
  have hbase1 : a.max_vel * (1 - |action|) ≤ a.max_vel := by
    nlinarith [mul_nonneg hmax habs]
  refine ⟨?_, ?_, ?_⟩
  · rw [move_velocity_eq]
    split_ifs with hm
    · rcases foldl_coll_block_eq_or_zero P a
        (bind_orientation P (a.orientation + action * P.pi / 2))
        a.collided_points (a.max_vel * (1 - |action|)) with h | h <;> rw [h]
      · exact ⟨hbase0, hbase1⟩
      · exact ⟨le_refl 0, hmax⟩
    · exact ⟨hbase0, hbase1⟩
  · intro h1
    have hb : a.max_vel * (1 - |action|) = 0 := by rw [h1]; ring
    rw [move_velocity_eq]
    split_ifs with hm
    · rw [hb]
      rcases foldl_coll_block_eq_or_zero P a
        (bind_orientation P (a.orientation + action * P.pi / 2))
        a.collided_points 0 with h | h <;> exact h
    · exact hb
  · intro h0 hm
    rw [move_velocity_eq, if_neg hm, h0]
    simp

/-- Witness for `move_velocity_bounds`: action `1/2` on the baseline
agent. -/
theorem move_velocity_bounds_witness :
    (|(1/2 : ℚ)| ≤ 1 ∧ 0 ≤ agent0.max_vel) ∧
    ((0 ≤ (move PC agent0 (1/2)).velocity ∧
      (move PC agent0 (1/2)).velocity ≤ agent0.max_vel) ∧
     (|(1/2 : ℚ)| = 1 → (move PC agent0 (1/2)).velocity = 0) ∧
     ((1/2 : ℚ) = 0 → agent0.mode ≠ .collide →
        (move PC agent0 (1/2)).velocity = agent0.max_vel)) :=
  ⟨⟨by rw [abs_of_pos (by norm_num : (0:ℚ) < 1/2)]; norm_num,
    by norm_num [agent0]⟩,
   move_velocity_bounds PC agent0 (1/2)
     (by rw [abs_of_pos (by norm_num : (0:ℚ) < 1/2)]; norm_num)
     (by norm_num [agent0])⟩

/-!
## Theorems about the collision-resolution pass (C1)
-/

/-- The `collide_agent_wall` never moves the agent. -/
theorem collide_agent_wall_position (E : CollisionParams) (a : Agent) :
    (collide_agent_wall E a).position = a.position := by
  simp only [collide_agent_wall]
  split <;> rfl

/-- The `collide_agent_objs` never moves the agent. -/
theorem collide_agent_objs_position (E : CollisionParams) (a : Agent) :
    (collide_agent_objs E a).position = a.position := by
  simp only [collide_agent_objs]
  split <;> rfl

/-- The `collide_agent_agent` never moves the agent. -/
theorem collide_agent_agent_position (E : CollisionParams) (a : Agent) :
    (collide_agent_agent E a).position = a.position := by
  simp only [collide_agent_agent]
  split <;> rfl

/-- Claim C1: After the collision-resolution pass of a tick of
`sims_target.py` — resolvers invoked in the fixed order (wall, landmark,
agent, resource), each overwriting `mode`, last match winning — an agent
that overlaps a wall and simultaneously sits on a resource patch (center
within patch radius, patch in the broad phase) ends the pass in mode
`exploit`, because the agent-resource resolver runs last. -/
theorem collision_pass_mode_exploit (E : CollisionParams) (a : Agent)
    (hwall : ∃ w ∈ E.walls, E.wall_overlap a.position w = true)
    (hres : ∃ r ∈ E.resources, E.res_overlap a.position r = true ∧
        E.dist a.position r.position ≤ r.radius) :
    (collision_pass E a).mode = .exploit := by
  obtain ⟨r, hrmem, hrover, hrdist⟩ := hres
  show (collide_agent_res E
    (collide_agent_agent E (collide_agent_objs E (collide_agent_wall E a)))).mode = .exploit
  set a3 := collide_agent_agent E (collide_agent_objs E (collide_agent_wall E a)) with ha3
  have hpos : a3.position = a.position := by
    rw [ha3, collide_agent_agent_position, collide_agent_objs_position,
        collide_agent_wall_position]
  have hmem : r ∈ E.resources.filter (fun x => E.res_overlap a3.position x) :=
    List.mem_filter.mpr ⟨hrmem, by rw [hpos]; exact hrover⟩
  simp only [collide_agent_res]
  split
  · rfl
  · rename_i hnone
    exact absurd (decide_eq_true (hpos ▸ hrdist))
      (List.find?_eq_none.mp hnone r hmem)

/-- Witness for `collision_pass_mode_exploit`: the concrete agent
overlaps the wall and sits on the patch, and the pass ends in mode
`exploit`. -/
theorem collision_pass_mode_exploit_witness :
    ((∃ w ∈ EW.walls, EW.wall_overlap agent0.position w = true) ∧
     (∃ r ∈ EW.resources, EW.res_overlap agent0.position r = true ∧
        EW.dist agent0.position r.position ≤ r.radius)) ∧
    (collision_pass EW agent0).mode = .exploit :=
  ⟨⟨⟨⟨0⟩, by simp [EW], rfl⟩, ⟨rW, by simp [EW], rfl, by norm_num [EW, rW]⟩⟩,
   collision_pass_mode_exploit EW agent0
     ⟨⟨0⟩, by simp [EW], rfl⟩
     ⟨rW, by simp [EW], rfl, by norm_num [EW, rW]⟩⟩

/-!
## Theorems about perception-candidate gathering (C6)
-/

/-- Every entry the object loop can produce is within `vision_range`
(the `obj_distance <= self.vision_range` guard). -/
theorem obj_foldl_distance_le (P : Prims) (a : Agent) (pl pr : ℚ) :
    ∀ (objs : List ObjView) (acc : List ObjEntry),
      (∀ e ∈ acc, e.distance ≤ a.vision_range) →
      ∀ e ∈ objs.foldl (obj_dict_step P a pl pr) acc,
        e.distance ≤ a.vision_range := by
  intro objs
  induction objs with
  | nil => intro acc hacc e he; exact hacc e he
  | cons o os ih =>
    intro acc hacc
    rw [List.foldl_cons]
    apply ih
    intro e he
    simp only [obj_dict_step] at he
    split_ifs at he with h1 h2 h3
    · rcases List.mem_append.mp he with hm | hm
      · exact hacc e hm
      · rw [List.mem_singleton.mp hm]
        exact h2
    · exact hacc e he
    · exact hacc e he
    · exact hacc e he

/-- The agent loop only ever appends entries. -/
theorem agent_foldl_mem_mono (P : Prims) (a : Agent) (pl pr : ℚ) :
    ∀ (l : List AgentView) (acc : List AgentEntry) (e : AgentEntry),
      e ∈ acc → e ∈ l.foldl (agent_dict_step P a pl pr) acc := by
  intro l
  induction l with
  | nil => intro acc e he; exact he
  | cons x xs ih =>
    intro acc e he
    rw [List.foldl_cons]
    apply ih
    simp only [agent_dict_step]
    split_ifs <;> first
      | exact he
      | exact List.mem_append_left _ he

/-- Every non-self agent passing the FOV test contributes a dictionary
entry — with no distance condition. -/
theorem agent_foldl_includes (P : Prims) (a : Agent) (pl pr : ℚ) :
    ∀ (l : List AgentView) (acc : List AgentEntry) (ag : AgentView),
      ag ∈ l → ag.id ≠ a.id → agent_fov_hit P a pl pr ag →
      ∃ e ∈ l.foldl (agent_dict_step P a pl pr) acc, e.id = ag.id := by
  intro l
  induction l with
  | nil => intro acc ag hmem; exact absurd hmem (List.not_mem_nil ag)
  | cons x xs ih =>
    intro acc ag hmem hid hfov
    rw [List.foldl_cons]
    rcases List.mem_cons.mp hmem with rfl | hmem'
    · have hstep : ∃ e ∈ agent_dict_step P a pl pr acc ag, e.id = ag.id := by
        simp only [agent_dict_step]
        rw [if_pos hid]
        split_ifs with h2
        · exact ⟨_, List.mem_append_right _ (List.mem_singleton.mpr rfl), rfl⟩
        · exact absurd hfov h2
      obtain ⟨e, he, heid⟩ := hstep
      exact ⟨e, agent_foldl_mem_mono P a pl pr xs _ e he, heid⟩
    · exact ih (agent_dict_step P a pl pr acc x) ag hmem' hid hfov

/-- Claim C6, counterexample: `gather_agent_info` applies *no* range
cutoff: another agent 10 units from the sensor origin — twice the
configured `vision_range` of 5 — still enters the candidate dictionary
(with its computed distance 10), as long as it passes the FOV test.  The
claim that such an agent "is excluded from the candidate set" is false
on the code. -/
theorem gather_agent_info_includes_beyond_range :
    ((gather_agent_info PC a6 [agFar]).vis_field_agent_dict.map
        AgentEntry.distance = [10]) ∧
    ¬((10:ℚ) ≤ a6.vision_range) := by
  constructor
  · norm_num [gather_agent_info, agent_dict_step, phis, linspace,
      List.range_succ, a6, agFar, agent0, PC]
  · norm_num [a6, agent0]

/-- Claim C6, amended: During perception-candidate gathering, the hard
`vision_range` cutoff applies to *objects/landmarks*
(`gather_obj_info`): every object entry has distance at most
`vision_range`.  Other *agents* are filtered only by the field-of-view
test (`gather_agent_info`), with no range cutoff: every non-self agent
passing the FOV test enters the candidate set regardless of its
distance.  Walls are always included, with no range cutoff: the wall
dictionary always holds all four walls. -/
theorem gather_candidates_range_cutoffs (P : Prims) (a : Agent)
    (objs : List ObjView) (agents : List AgentView) :
    (∀ e ∈ (gather_obj_info P a objs).vis_field_obj_dict,
        e.distance ≤ a.vision_range) ∧
    (∀ ag ∈ agents, ag.id ≠ a.id →
        agent_fov_hit P a ((phis P a).headD 0) ((phis P a).getLastD 0) ag →
        ∃ e ∈ (gather_agent_info P a agents).vis_field_agent_dict,
          e.id = ag.id) ∧
    (gather_boundary_wall_info a).vis_field_wall_dict.length = 4 := by
  refine ⟨?_, ?_, rfl⟩
  · intro e he
    simp only [gather_obj_info] at he
    exact obj_foldl_distance_le P a _ _ objs []
      (fun e h => absurd h (List.not_mem_nil e)) e he
  · intro ag hmem hid hfov
    simp only [gather_agent_info]
    exact agent_foldl_includes P a _ _ agents [] ag hmem hid hfov

/-- Witness for `gather_candidates_range_cutoffs`: the far agent passes
the FOV test of `a6` and indeed appears in the candidate dictionary. -/
theorem gather_candidates_range_cutoffs_witness :
    (agFar.id ≠ a6.id ∧
     agent_fov_hit PC a6 ((phis PC a6).headD 0) ((phis PC a6).getLastD 0) agFar) ∧
    (∃ e ∈ (gather_agent_info PC a6 [agFar]).vis_field_agent_dict,
        e.id = agFar.id) :=
  ⟨⟨by norm_num [agFar, a6, agent0],
    by norm_num [agent_fov_hit, phis, linspace, List.range_succ, a6, agFar, agent0, PC]⟩,
   (gather_candidates_range_cutoffs PC a6 [] [agFar]).2.1 agFar
     (List.mem_singleton.mpr rfl)
     (by norm_num [agFar, a6, agent0])
     (by norm_num [agent_fov_hit, phis, linspace, List.range_succ, a6, agFar, agent0, PC])⟩

/-!
## Theorems about the perception pass frame effect (C8)
-/

/-- The `PersistEq` is reflexive. -/
theorem persistEq_refl (x : Agent) : PersistEq x x :=
  ⟨rfl, rfl, rfl, rfl, rfl, rfl, rfl⟩

/-- The `PersistEq` is transitive. -/
theorem persistEq_trans {x y z : Agent} (h1 : PersistEq x y)
    (h2 : PersistEq y z) : PersistEq x z := by
  obtain ⟨a1, a2, a3, a4, a5, a6, a7⟩ := h1
  obtain ⟨b1, b2, b3, b4, b5, b6, b7⟩ := h2
  exact ⟨b1.trans a1, b2.trans a2, b3.trans a3, b4.trans a4,
    b5.trans a5, b6.trans a6, b7.trans a7⟩

/-- The `PersistEq` passes through a conditional. -/
theorem persist_ite (c : Prop) [Decidable c] {x y z : Agent}
    (hy : PersistEq x y) (hz : PersistEq x z) :
    PersistEq x (if c then y else z) := by
  by_cases h : c
  · rwa [if_pos h]
  · rwa [if_neg h]

/-- The `fill_vis_field_walls` writes only the `vis_field` / `dist_field`
buffers. -/
theorem persist_fill_walls (P : Prims) (x b : Agent)
    (h : fill_vis_field_walls P x = some b) : PersistEq x b := by
  simp only [fill_vis_field_walls] at h
  split at h
  · exact Option.noConfusion h
  · injection h with hb
    subst hb
    exact ⟨rfl, rfl, rfl, rfl, rfl, rfl, rfl⟩

/-- The gather phase writes only perception buffers. -/
theorem persist_gathered (P : Prims) (objs : List ObjView)
    (agents : List AgentView) (x : Agent) :
    PersistEq x (sensing_gathered P x objs agents) := by
  have hb1 : PersistEq x (gather_obj_info P
      (gather_boundary_wall_info (gather_boundary_endpt_info P
        (gather_self_percep_info P x))) objs) :=
    ⟨rfl, rfl, rfl, rfl, rfl, rfl, rfl⟩
  have hb2 : PersistEq x (gather_self_percep_info P x) :=
    ⟨rfl, rfl, rfl, rfl, rfl, rfl, rfl⟩
  have h_a2 : PersistEq x
      (if ¬(gather_self_percep_info P x).sim_type_nowalls then
        gather_obj_info P (gather_boundary_wall_info
          (gather_boundary_endpt_info P (gather_self_percep_info P x))) objs
      else gather_self_percep_info P x) := persist_ite _ hb1 hb2
  simp only [sensing_gathered]
  exact persist_ite _
    (persistEq_trans h_a2 ⟨rfl, rfl, rfl, rfl, rfl, rfl, rfl⟩) h_a2

/-- The wall/object fill phase writes only perception buffers. -/
theorem persist_fill_wallobj (P : Prims) (x b : Agent)
    (h : sensing_fill_wallobj P x = some b) : PersistEq x b := by
  simp only [sensing_fill_wallobj] at h
  split_ifs at h with hc
  · injection h with hb
    subst hb
    exact persistEq_refl x
  · split at h
    · exact Option.noConfusion h
    · rename_i a4 heq
      injection h with hb
      subst hb
      exact persistEq_trans (persist_fill_walls P x a4 heq)
        ⟨rfl, rfl, rfl, rfl, rfl, rfl, rfl⟩

/-- The whole gather/fill pipeline writes only perception buffers. -/
theorem sensing_core_persist (P : Prims) (objs : List ObjView)
    (agents : List AgentView) (x c : Agent)
    (h : sensing_core P x objs agents = some c) : PersistEq x c := by
  simp only [sensing_core] at h
  split at h
  · exact Option.noConfusion h
  · rename_i a5 heq
    injection h with hb
    subst hb
    have h3 : PersistEq x a5 :=
      persistEq_trans (persist_gathered P objs agents x)
        (persist_fill_wallobj P _ a5 heq)
    exact persist_ite _
      (persistEq_trans h3 ⟨rfl, rfl, rfl, rfl, rfl, rfl, rfl⟩) h3

/-- The noised pass leaves all persisted non-orientation state
unchanged. -/
theorem visual_sensing_noised_persist (P : Prims) (objs : List ObjView)
    (agents : List AgentView) (a : Agent) (ns : ℚ) (c : Agent)
    (h : visual_sensing_noised P a objs agents ns = some c) :
    c.position = a.position ∧ c.velocity = a.velocity ∧
    c.acceleration = a.acceleration ∧ c.mode = a.mode ∧
    c.collected_r = a.collected_r ∧ c.collided_points = a.collided_points := by
  simp only [visual_sensing_noised] at h
  have hp := sensing_core_persist P objs agents _ c h
  exact ⟨hp.1, hp.2.2.1, hp.2.2.2.1, hp.2.2.2.2.1,
    hp.2.2.2.2.2.1, hp.2.2.2.2.2.2⟩

/-- Shifting the pre-pass orientation by the noise and sensing with
zero noise is the same as sensing with that noise. -/
theorem visual_sensing_noised_shift (P : Prims) (objs : List ObjView)
    (agents : List AgentView) (a : Agent) (ns : ℚ) :
    visual_sensing_noised P { a with orientation := a.orientation + ns }
        objs agents 0
      = visual_sensing_noised P a objs agents ns := by
  simp only [visual_sensing_noised]
  congr 1
  simp [Agent.mk.injEq]

/-- Claim C8: Whenever `visual_sensing` returns, it has restored the
exact pre-call orientation and left the whole persisted state
(position, orientation, velocity, acceleration, mode, collected
resources, contact list) unchanged; moreover the per-tick noise is one
shared sample: the produced `vis_field` / `dist_field` buffers are
exactly those of a noiseless pass run at the perturbed orientation
`orientation + sample * percep_angle_noise_std`. -/
theorem visual_sensing_frame (P : Prims) (objs : List ObjView)
    (agents : List AgentView) (a : Agent) (n : ℚ) (b : Agent)
    (h : visual_sensing P a objs agents n = some b) :
    b.orientation = a.orientation ∧ b.position = a.position ∧
    b.velocity = a.velocity ∧ b.acceleration = a.acceleration ∧
    b.mode = a.mode ∧ b.collected_r = a.collected_r ∧
    b.collided_points = a.collided_points ∧
    ∃ b0, visual_sensing P
        { a with orientation := a.orientation + n * a.percep_angle_noise_std }
        objs agents 0 = some b0 ∧
      b0.vis_field = b.vis_field ∧ b0.dist_field = b.dist_field := by
  simp only [visual_sensing] at h
  split at h
  · exact Option.noConfusion h
  · rename_i c heq
    injection h with hb
    subst hb
    have hp := visual_sensing_noised_persist P objs agents a _ c heq
    refine ⟨rfl, hp.1, hp.2.1, hp.2.2.1, hp.2.2.2.1, hp.2.2.2.2.1,
      hp.2.2.2.2.2, ?_⟩
    refine ⟨{ c with orientation :=
        a.orientation + n * a.percep_angle_noise_std }, ?_, rfl, rfl⟩
    simp only [visual_sensing]
    rw [zero_mul, visual_sensing_noised_shift P objs agents a
      (n * a.percep_angle_noise_std), heq]

/-- Witness for `visual_sensing_frame`: on the baseline no-walls agent
with no other agents, the pass returns (with the buffers it computes
equal to the agent's starting buffers), and the frame theorem applies. -/
theorem visual_sensing_frame_witness :
    visual_sensing PC agent0 [] [] 1 = some agent0 ∧
    (agent0.orientation = agent0.orientation ∧
     agent0.position = agent0.position ∧
     agent0.velocity = agent0.velocity ∧
     agent0.acceleration = agent0.acceleration ∧
     agent0.mode = agent0.mode ∧
     agent0.collected_r = agent0.collected_r ∧
     agent0.collided_points = agent0.collided_points ∧
     ∃ b0, visual_sensing PC
        { agent0 with orientation :=
            agent0.orientation + 1 * agent0.percep_angle_noise_std }
        [] [] 0 = some b0 ∧
       b0.vis_field = agent0.vis_field ∧ b0.dist_field = agent0.dist_field) :=
  ⟨by norm_num [visual_sensing, visual_sensing_noised, sensing_core,
      sensing_fill_wallobj, sensing_gathered, gather_self_percep_info,
      agent0, PC, List.replicate, Agent.mk.injEq, Prod.ext_iff],
   visual_sensing_frame PC [] [] agent0 1 agent0
     (by norm_num [visual_sensing, visual_sensing_noised, sensing_core,
        sensing_fill_wallobj, sensing_gathered, gather_self_percep_info,
        agent0, PC, List.replicate, Agent.mk.injEq, Prod.ext_iff])⟩

end ABM
